import Mathlib

/-!
Shallow embedding of the color-interpolation and border-segmentation engine of
`src/src/components/RotatingGradientBorder.tsx`.

Strings are modelled as `List Char`; JavaScript number arithmetic is modelled
over `ℚ` (exact rational arithmetic); `Math.round x` is `⌊x + 1/2⌋`.
JavaScript's `parseInt(s, 16)` yields `NaN` when no leading hex digit exists;
`NaN` propagation is modelled with `Option`.
-/

namespace RGB

/-- Value of a hex digit as accepted by `parseInt(·, 16)`: `0`-`9`, `a`-`f`,
`A`-`F`; `none` for any other character. -/
def hexDigitVal? (c : Char) : Option Nat :=
  if '0'.toNat ≤ c.toNat ∧ c.toNat ≤ '9'.toNat then some (c.toNat - '0'.toNat)
  else if 'a'.toNat ≤ c.toNat ∧ c.toNat ≤ 'f'.toNat then some (c.toNat - 'a'.toNat + 10)
  else if 'A'.toNat ≤ c.toNat ∧ c.toNat ≤ 'F'.toNat then some (c.toNat - 'A'.toNat + 10)
  else none

/-- Accumulate the remaining hex digits of a `parseInt(·, 16)` run: JavaScript
stops at the first non-digit and keeps what it has parsed so far. -/
def jsParseIntHexAux : List Char → Nat → Nat
  | [], acc => acc
  | c :: cs, acc =>
    match hexDigitVal? c with
    | some d => jsParseIntHexAux cs (16 * acc + d)
    | none => acc

/-- Model of `parseInt(s, 16)`: parses the longest prefix of hex digits; `none` models
the `NaN` returned when the string does not start with a hex digit.  (Leading
whitespace, sign and `0x`-prefix handling are irrelevant for the two-character
substrings this program feeds in and are not modelled.) -/
def jsParseIntHex : List Char → Option Nat
  | [] => none
  | c :: cs =>
    match hexDigitVal? c with
    | some d => some (jsParseIntHexAux cs d)
    | none => none

/-- Model of `String.prototype.replace('#', '')`: removes the first `'#'`, if any. -/
def jsReplaceFirstHash : List Char → List Char
  | [] => []
  | c :: cs => if c = '#' then cs else c :: jsReplaceFirstHash cs

/-- Model of `String.prototype.substring(a, b)` for `a ≤ b`. -/
def jsSubstring (cs : List Char) (a b : Nat) : List Char :=
  (cs.drop a).take (b - a)

/-- Model of `Math.round`: `⌊x + 1/2⌋` (ties round toward `+∞`, as in JavaScript). -/
def jsRound (x : ℚ) : ℤ := ⌊x + 1 / 2⌋

/-- Lowercase hex digit character for a value `< 16`. -/
def hexDigitChar (n : Nat) : Char :=
  if n < 10 then Char.ofNat ('0'.toNat + n) else Char.ofNat ('a'.toNat + (n - 10))

/-- Model of `Number.prototype.toString(16)` for a natural number: lowercase hex
digits, most significant first, `"0"` for `0` — exactly `Nat.toDigits 16`. -/
def natToHex (n : Nat) : List Char :=
  Nat.toDigits 16 n

/-- Model of `Number.prototype.toString(16)` for an integer: negative values print a
leading minus sign. -/
def intToHex (i : ℤ) : List Char :=
  if i < 0 then '-' :: natToHex i.natAbs else natToHex i.toNat

/-- Model of `String.prototype.padStart(2, '0')`. -/
def padStart2 (cs : List Char) : List Char :=
  if cs.length < 2 then List.replicate (2 - cs.length) '0' ++ cs else cs

/-- Function `interpolateColor` from `RotatingGradientBorder.tsx` (lines 25-42):
strip the
`'#'`, parse the three channels of each endpoint with `parseInt(·, 16)`,
linearly interpolate each channel as `c1 + (c2 - c1) * ratio`, `Math.round`
it, and re-encode as `#` followed by three zero-padded lowercase hex bytes.
`none` models the `NaN`-poisoned output on unparseable input.
-/
def interpolateColor (color1 color2 : List Char) (ratio : ℚ) : Option (List Char) := do
  let hex1 := jsReplaceFirstHash color1
  let hex2 := jsReplaceFirstHash color2
  let r1 ← jsParseIntHex (jsSubstring hex1 0 2)
  let g1 ← jsParseIntHex (jsSubstring hex1 2 4)
  let b1 ← jsParseIntHex (jsSubstring hex1 4 6)
  let r2 ← jsParseIntHex (jsSubstring hex2 0 2)
  let g2 ← jsParseIntHex (jsSubstring hex2 2 4)
  let b2 ← jsParseIntHex (jsSubstring hex2 4 6)
  let r := jsRound ((r1 : ℚ) + ((r2 : ℚ) - (r1 : ℚ)) * ratio)
  let g := jsRound ((g1 : ℚ) + ((g2 : ℚ) - (g1 : ℚ)) * ratio)
  let b := jsRound ((b1 : ℚ) + ((b2 : ℚ) - (b1 : ℚ)) * ratio)
  some ('#' :: (([r, g, b].map fun x => padStart2 (intToHex x)).flatten))

/-- The rounded linear interpolation of one channel, as `interpolateColor`
computes it. -/
def mixRound (c1 c2 : Nat) (t : ℚ) : ℤ :=
  jsRound ((c1 : ℚ) + ((c2 : ℚ) - (c1 : ℚ)) * t)

/-- Two-lowercase-hex-digit encoding of a byte, the shape `interpolateColor`
emits for every in-range channel. -/
def encodeByte (n : Nat) : List Char :=
  [hexDigitChar (n / 16), hexDigitChar (n % 16)]

/-- Canonical `#rrggbb` lowercase encoding of a channel triple. -/
def canonicalHex (r g b : Nat) : List Char :=
  '#' :: (encodeByte r ++ encodeByte g ++ encodeByte b)

/-- Parse a `#`-prefixed color the way `interpolateColor` does and re-encode
its channels through the same hex formatting (zero-padded lowercase). -/
def reencodeColor (cs : List Char) : Option (List Char) := do
  let hex := jsReplaceFirstHash cs
  let r ← jsParseIntHex (jsSubstring hex 0 2)
  let g ← jsParseIntHex (jsSubstring hex 2 4)
  let b ← jsParseIntHex (jsSubstring hex 4 6)
  some (canonicalHex r g b)

end RGB

namespace RotatingGradientBorder

open RGB

/-- The constant `NEON_BLUE = '#00BFFF'`. -/
def NEON_BLUE : List Char := "#00BFFF".toList

/-- The constant `NEON_PURPLE = '#9D4EDD'`. -/
def NEON_PURPLE : List Char := "#9D4EDD".toList

/-- The source builds `Array(32)` / `Array.from({length: 32}, ...)`: 32 border
segments in total. -/
def segmentCount : Nat := 32

/-- The source sets `segmentsPerSide = 8` in `renderBorderSegments`. -/
def segmentsPerSide : Nat := 8

/-- JavaScript truncation toward zero, as used by the `%` operator. -/
def jsTrunc (x : ℚ) : ℤ := if 0 ≤ x then ⌊x⌋ else ⌈x⌉

/-- JavaScript's `%` on numbers: `x % y = x - y * trunc(x / y)`. -/
def jsFmod (x y : ℚ) : ℚ := x - y * (jsTrunc (x / y) : ℚ)

/-- Per-segment phase from the animation listener:
`const phase = (value + i / 32) % 1`. -/
def segmentPhase (value : ℚ) (i : Nat) : ℚ :=
  jsFmod (value + (i : ℚ) / 32) 1

/-- Color of border segment `i` at animation value `value`:
`interpolateColor(NEON_BLUE, NEON_PURPLE, phase)`. -/
def segColor (value : ℚ) (i : Nat) : Option (List Char) :=
  interpolateColor NEON_BLUE NEON_PURPLE (segmentPhase value i)

/-- The listener's `Array.from({length: 32}, (_, i) => ...)`: the ordered list
of all 32 segment colors at animation value `value`. -/
def segmentColors (value : ℚ) : List (Option (List Char)) :=
  (List.range segmentCount).map (segColor value)

/-- One absolutely positioned border piece produced by `renderBorderSegments`.
`side` is `0`=top, `1`=right, `2`=bottom, `3`=left; `start` is the percentage
offset from the side's start corner (the source's `segmentLeft`, assigned to
`left`/`top`/`right`/`bottom` depending on the side); `length` is the
percentage extent along the side (the source's `segmentSize`; the segment's
cross-side extent is the fixed `borderWidth`).  Corner-radius styling is
visual only and not modelled. -/
structure BorderSegment where
  side : Nat
  start : ℚ
  length : ℚ
  color : Option (List Char)
deriving DecidableEq, Repr

/-- The body of `renderBorderSegments`' `forEach((color, index) => ...)`
callback (lines 123-199): the segment's side is `index / 8`, its position
within the side is `index % 8`, its offset is `positionInSide * (100 / 8)`
percent, and its extent is `100 / 8` percent — except that the last segment
of a side (`positionInSide == segmentsPerSide - 1`) is extended to
`100 - segmentLeft` percent. -/
def segGeom (index : Nat) (color : Option (List Char)) : BorderSegment :=
  let side := index / segmentsPerSide
  let positionInSide := index % segmentsPerSide
  let segmentWidth : ℚ := 100 / (segmentsPerSide : ℚ)
  let segmentLeft : ℚ := (positionInSide : ℚ) * segmentWidth
  let isLastInSide := positionInSide = segmentsPerSide - 1
  let segmentSize : ℚ := if isLastInSide then 100 - segmentLeft else segmentWidth
  { side := side, start := segmentLeft, length := segmentSize, color := color }

/-- Function `renderBorderSegments` (lines 123-199): one positioned piece per entry of
`borderSegments`, in index order. -/
def renderBorderSegments (borderSegments : List (Option (List Char))) : List BorderSegment :=
  borderSegments.enum.map fun p => segGeom p.1 p.2

/-- One fold of `avgColor`'s `reduce((sum, color) => sum + parseInt(
color.substring(lo, hi), 16), 0)`; `none` models a `NaN`-poisoned sum. -/
def sumChannel (lo hi : Nat) (segs : List (List Char)) : Option Nat :=
  segs.foldl
    (fun acc color => do
      let s ← acc
      let v ← jsParseIntHex (jsSubstring color lo hi)
      some (s + v))
    (some 0)

/-- Memo `avgColor` (lines 99-116): per-channel sums over `substring(1,3)`,
`substring(3,5)`, `substring(5,7)`, divided by the segment count, passed
through `Math.round(x).toString(16).padStart(2, '0')` and concatenated after
`#`.  `none` models the `NaN` results on unparseable colors or an empty list
(division by zero). -/
def avgColor (borderSegments : List (List Char)) : Option (List Char) := do
  let totalR ← sumChannel 1 3 borderSegments
  let totalG ← sumChannel 3 5 borderSegments
  let totalB ← sumChannel 5 7 borderSegments
  let count := borderSegments.length
  if count = 0 then none
  else
    some ('#' ::
      (([(totalR : ℚ) / (count : ℚ), (totalG : ℚ) / (count : ℚ), (totalB : ℚ) / (count : ℚ)].map
        fun x => padStart2 (intToHex (jsRound x))).flatten))

/-- The component's configuration surface: its only props besides `children`
and `style` are `borderWidth` (default 2) and `borderRadius` (default 12).
The segment count is not configurable. -/
structure Props where
  borderWidth : ℚ := 2
  borderRadius : ℚ := 12

/-- The segment count the component uses for a given props configuration:
always the hard-coded 32. -/
def segmentCountOf (_props : Props) : Nat := segmentCount

end RotatingGradientBorder

namespace RGB

lemma hexDigitVal?_lt_16 {c : Char} {v : Nat} (h : hexDigitVal? c = some v) : v < 16 := by
  unfold hexDigitVal? at h
  simp only [show '0'.toNat = 48 from rfl, show '9'.toNat = 57 from rfl,
    show 'a'.toNat = 97 from rfl, show 'f'.toNat = 102 from rfl,
    show 'A'.toNat = 65 from rfl, show 'F'.toNat = 70 from rfl] at h
  split at h
  · next hc => have := Option.some.inj h; omega
  · split at h
    · next hc => have := Option.some.inj h; omega
    · split at h
      · next hc => have := Option.some.inj h; omega
      · exact absurd h (by simp)

lemma jsParseIntHex_pair {c1 c2 : Char} {v1 v2 : Nat}
    (h1 : hexDigitVal? c1 = some v1) (h2 : hexDigitVal? c2 = some v2) :
    jsParseIntHex [c1, c2] = some (16 * v1 + v2) := by
  simp [jsParseIntHex, jsParseIntHexAux, h1, h2]

lemma jsRound_intCast (z : ℤ) : jsRound (z : ℚ) = z := by
  rw [jsRound, Int.floor_eq_iff]
  constructor
  · linarith
  · linarith

lemma jsRound_natCast (n : ℕ) : jsRound (n : ℚ) = n := by
  exact_mod_cast jsRound_intCast (n : ℤ)

lemma jsRound_mono {x y : ℚ} (h : x ≤ y) : jsRound x ≤ jsRound y :=
  Int.floor_le_floor (by linarith)

lemma mixRound_zero (c1 c2 : Nat) : mixRound c1 c2 0 = c1 := by
  have h : (c1 : ℚ) + ((c2 : ℚ) - (c1 : ℚ)) * 0 = ((c1 : ℕ) : ℚ) := by ring
  rw [mixRound, h, jsRound_natCast]

lemma mixRound_one (c1 c2 : Nat) : mixRound c1 c2 1 = c2 := by
  have h : (c1 : ℚ) + ((c2 : ℚ) - (c1 : ℚ)) * 1 = ((c2 : ℕ) : ℚ) := by ring
  rw [mixRound, h, jsRound_natCast]

lemma mixRound_self (c : Nat) (t : ℚ) : mixRound c c t = c := by
  have h : (c : ℚ) + ((c : ℚ) - (c : ℚ)) * t = ((c : ℕ) : ℚ) := by ring
  rw [mixRound, h, jsRound_natCast]

lemma mixRound_symm (c1 c2 : Nat) (t : ℚ) : mixRound c1 c2 t = mixRound c2 c1 (1 - t) := by
  unfold mixRound jsRound
  congr 1
  ring

lemma mixRound_le_max {c1 c2 : Nat} {t : ℚ} (h0 : 0 ≤ t) (h1 : t ≤ 1) :
    mixRound c1 c2 t ≤ ((max c1 c2 : ℕ) : ℤ) := by
  have harg : (c1 : ℚ) + ((c2 : ℚ) - (c1 : ℚ)) * t ≤ ((max c1 c2 : ℕ) : ℚ) := by
    rcases le_total (c1 : ℚ) (c2 : ℚ) with hc | hc
    · have hmax : ((max c1 c2 : ℕ) : ℚ) = (c2 : ℚ) := by
        have : max c1 c2 = c2 := max_eq_right (by exact_mod_cast hc)
        rw [this]
      rw [hmax]
      nlinarith
    · have hmax : ((max c1 c2 : ℕ) : ℚ) = (c1 : ℚ) := by
        have : max c1 c2 = c1 := max_eq_left (by exact_mod_cast hc)
        rw [this]
      rw [hmax]
      nlinarith
  calc mixRound c1 c2 t ≤ jsRound ((max c1 c2 : ℕ) : ℚ) := jsRound_mono harg
    _ = ((max c1 c2 : ℕ) : ℤ) := jsRound_natCast _

lemma min_le_mixRound {c1 c2 : Nat} {t : ℚ} (h0 : 0 ≤ t) (h1 : t ≤ 1) :
    ((min c1 c2 : ℕ) : ℤ) ≤ mixRound c1 c2 t := by
  have harg : ((min c1 c2 : ℕ) : ℚ) ≤ (c1 : ℚ) + ((c2 : ℚ) - (c1 : ℚ)) * t := by
    rcases le_total (c1 : ℚ) (c2 : ℚ) with hc | hc
    · have hmin : ((min c1 c2 : ℕ) : ℚ) = (c1 : ℚ) := by
        have : min c1 c2 = c1 := min_eq_left (by exact_mod_cast hc)
        rw [this]
      rw [hmin]
      nlinarith
    · have hmin : ((min c1 c2 : ℕ) : ℚ) = (c2 : ℚ) := by
        have : min c1 c2 = c2 := min_eq_right (by exact_mod_cast hc)
        rw [this]
      rw [hmin]
      nlinarith
  calc ((min c1 c2 : ℕ) : ℤ) = jsRound ((min c1 c2 : ℕ) : ℚ) := (jsRound_natCast _).symm
    _ ≤ mixRound c1 c2 t := jsRound_mono harg

set_option maxRecDepth 10000 in
lemma padStart2_intToHex_byte :
    ∀ n : Nat, n < 256 → padStart2 (intToHex (Int.ofNat n)) = encodeByte n := by decide

lemma padStart2_intToHex_eq {i : ℤ} (h0 : 0 ≤ i) (h255 : i ≤ 255) :
    padStart2 (intToHex i) = encodeByte i.toNat := by
  have hi : (i.toNat : ℤ) = i := Int.toNat_of_nonneg h0
  rw [← hi]
  exact padStart2_intToHex_byte _ (by omega)

lemma padStart2_intToHex_natCast {n : ℕ} (h : n < 256) :
    padStart2 (intToHex ((n : ℕ) : ℤ)) = encodeByte n := by
  rw [padStart2_intToHex_eq (by exact_mod_cast Nat.zero_le n)
    (by exact_mod_cast (by omega : n ≤ 255))]
  simp

lemma two_hex_digits_lt_256 {c1 c2 : Char} {v1 v2 : Nat}
    (h1 : hexDigitVal? c1 = some v1) (h2 : hexDigitVal? c2 = some v2) :
    16 * v1 + v2 < 256 := by
  have := hexDigitVal?_lt_16 h1
  have := hexDigitVal?_lt_16 h2
  omega

lemma interpolateColor_reduce
    {d1 d2 d3 d4 d5 d6 e1 e2 e3 e4 e5 e6 : Char}
    {v1 v2 v3 v4 v5 v6 w1 w2 w3 w4 w5 w6 : Nat}
    (hd1 : hexDigitVal? d1 = some v1) (hd2 : hexDigitVal? d2 = some v2)
    (hd3 : hexDigitVal? d3 = some v3) (hd4 : hexDigitVal? d4 = some v4)
    (hd5 : hexDigitVal? d5 = some v5) (hd6 : hexDigitVal? d6 = some v6)
    (he1 : hexDigitVal? e1 = some w1) (he2 : hexDigitVal? e2 = some w2)
    (he3 : hexDigitVal? e3 = some w3) (he4 : hexDigitVal? e4 = some w4)
    (he5 : hexDigitVal? e5 = some w5) (he6 : hexDigitVal? e6 = some w6)
    (t : ℚ) :
    interpolateColor ('#' :: [d1, d2, d3, d4, d5, d6]) ('#' :: [e1, e2, e3, e4, e5, e6]) t =
      some ('#' ::
        (padStart2 (intToHex (mixRound (16 * v1 + v2) (16 * w1 + w2) t)) ++
          (padStart2 (intToHex (mixRound (16 * v3 + v4) (16 * w3 + w4) t)) ++
            padStart2 (intToHex (mixRound (16 * v5 + v6) (16 * w5 + w6) t))))) := by
  have p1 : jsParseIntHex (jsSubstring [d1,d2,d3,d4,d5,d6] 0 2) = some (16*v1+v2) :=
    jsParseIntHex_pair hd1 hd2
  have p2 : jsParseIntHex (jsSubstring [d1,d2,d3,d4,d5,d6] 2 4) = some (16*v3+v4) :=
    jsParseIntHex_pair hd3 hd4
  have p3 : jsParseIntHex (jsSubstring [d1,d2,d3,d4,d5,d6] 4 6) = some (16*v5+v6) :=
    jsParseIntHex_pair hd5 hd6
  have q1 : jsParseIntHex (jsSubstring [e1,e2,e3,e4,e5,e6] 0 2) = some (16*w1+w2) :=
    jsParseIntHex_pair he1 he2
  have q2 : jsParseIntHex (jsSubstring [e1,e2,e3,e4,e5,e6] 2 4) = some (16*w3+w4) :=
    jsParseIntHex_pair he3 he4
  have q3 : jsParseIntHex (jsSubstring [e1,e2,e3,e4,e5,e6] 4 6) = some (16*w5+w6) :=
    jsParseIntHex_pair he5 he6
  simp [interpolateColor, jsReplaceFirstHash, p1, p2, p3, q1, q2, q3, mixRound]

lemma reencodeColor_reduce
    {d1 d2 d3 d4 d5 d6 : Char} {v1 v2 v3 v4 v5 v6 : Nat}
    (hd1 : hexDigitVal? d1 = some v1) (hd2 : hexDigitVal? d2 = some v2)
    (hd3 : hexDigitVal? d3 = some v3) (hd4 : hexDigitVal? d4 = some v4)
    (hd5 : hexDigitVal? d5 = some v5) (hd6 : hexDigitVal? d6 = some v6) :
    reencodeColor ('#' :: [d1, d2, d3, d4, d5, d6]) =
      some (canonicalHex (16 * v1 + v2) (16 * v3 + v4) (16 * v5 + v6)) := by
  have p1 : jsParseIntHex (jsSubstring [d1,d2,d3,d4,d5,d6] 0 2) = some (16*v1+v2) :=
    jsParseIntHex_pair hd1 hd2
  have p2 : jsParseIntHex (jsSubstring [d1,d2,d3,d4,d5,d6] 2 4) = some (16*v3+v4) :=
    jsParseIntHex_pair hd3 hd4
  have p3 : jsParseIntHex (jsSubstring [d1,d2,d3,d4,d5,d6] 4 6) = some (16*v5+v6) :=
    jsParseIntHex_pair hd5 hd6
  simp [reencodeColor, jsReplaceFirstHash, p1, p2, p3]

end RGB

open RGB RotatingGradientBorder

/-- C1: for every pair of well-formed 6-hex-digit colors `A` and `B`,
`interpolateColor A B 0` equals `A` and `interpolateColor A B 1` equals `B`,
after round-trip through the function's hex re-encoding (zero-padded
lowercase channels). -/
theorem interpolateColor_ratio_zero_one
    {d1 d2 d3 d4 d5 d6 e1 e2 e3 e4 e5 e6 : Char}
    {v1 v2 v3 v4 v5 v6 w1 w2 w3 w4 w5 w6 : Nat}
    (hd1 : hexDigitVal? d1 = some v1) (hd2 : hexDigitVal? d2 = some v2)
    (hd3 : hexDigitVal? d3 = some v3) (hd4 : hexDigitVal? d4 = some v4)
    (hd5 : hexDigitVal? d5 = some v5) (hd6 : hexDigitVal? d6 = some v6)
    (he1 : hexDigitVal? e1 = some w1) (he2 : hexDigitVal? e2 = some w2)
    (he3 : hexDigitVal? e3 = some w3) (he4 : hexDigitVal? e4 = some w4)
    (he5 : hexDigitVal? e5 = some w5) (he6 : hexDigitVal? e6 = some w6) :
    interpolateColor ('#' :: [d1, d2, d3, d4, d5, d6]) ('#' :: [e1, e2, e3, e4, e5, e6]) 0 =
      reencodeColor ('#' :: [d1, d2, d3, d4, d5, d6]) ∧
    interpolateColor ('#' :: [d1, d2, d3, d4, d5, d6]) ('#' :: [e1, e2, e3, e4, e5, e6]) 1 =
      reencodeColor ('#' :: [e1, e2, e3, e4, e5, e6]) := by
  constructor
  · rw [interpolateColor_reduce hd1 hd2 hd3 hd4 hd5 hd6 he1 he2 he3 he4 he5 he6,
      reencodeColor_reduce hd1 hd2 hd3 hd4 hd5 hd6,
      mixRound_zero, mixRound_zero, mixRound_zero,
      padStart2_intToHex_natCast (two_hex_digits_lt_256 hd1 hd2),
      padStart2_intToHex_natCast (two_hex_digits_lt_256 hd3 hd4),
      padStart2_intToHex_natCast (two_hex_digits_lt_256 hd5 hd6)]
    simp [canonicalHex]
  · rw [interpolateColor_reduce hd1 hd2 hd3 hd4 hd5 hd6 he1 he2 he3 he4 he5 he6,
      reencodeColor_reduce he1 he2 he3 he4 he5 he6,
      mixRound_one, mixRound_one, mixRound_one,
      padStart2_intToHex_natCast (two_hex_digits_lt_256 he1 he2),
      padStart2_intToHex_natCast (two_hex_digits_lt_256 he3 he4),
      padStart2_intToHex_natCast (two_hex_digits_lt_256 he5 he6)]
    simp [canonicalHex]

/-- Witness for C1 at the component's two endpoint colors. -/
theorem interpolateColor_ratio_zero_one_witness :
    interpolateColor ('#' :: ['0','0','B','F','F','F']) ('#' :: ['9','D','4','E','D','D']) 0 =
      reencodeColor ('#' :: ['0','0','B','F','F','F']) ∧
    interpolateColor ('#' :: ['0','0','B','F','F','F']) ('#' :: ['9','D','4','E','D','D']) 1 =
      reencodeColor ('#' :: ['9','D','4','E','D','D']) := by
  have a0 : hexDigitVal? '0' = some 0 := by decide
  have aB : hexDigitVal? 'B' = some 11 := by decide
  have aF : hexDigitVal? 'F' = some 15 := by decide
  have a9 : hexDigitVal? '9' = some 9 := by decide
  have aD : hexDigitVal? 'D' = some 13 := by decide
  have a4 : hexDigitVal? '4' = some 4 := by decide
  have aE : hexDigitVal? 'E' = some 14 := by decide
  exact interpolateColor_ratio_zero_one a0 a0 aB aF aF aF a9 aD a4 aE aD aD

/-- C2: `interpolateColor('#00BFFF', '#9D4EDD', 0.5)` is the channel-wise
rounded midpoint with channels R=79 (0x4F), G=135 (0x87), B=238 (0xEE),
i.e. the hex string `#4f87ee` (lowercase form of `#4F87EE`). -/
theorem interpolateColor_midpoint_fixture :
    interpolateColor NEON_BLUE NEON_PURPLE (1/2) = some (canonicalHex 79 135 238) ∧
    canonicalHex 79 135 238 = "#4f87ee".toList := by
  constructor
  · have h1 : NEON_BLUE = '#' :: ['0','0','B','F','F','F'] := rfl
    have h2 : NEON_PURPLE = '#' :: ['9','D','4','E','D','D'] := rfl
    have a0 : hexDigitVal? '0' = some 0 := by decide
    have aB : hexDigitVal? 'B' = some 11 := by decide
    have aF : hexDigitVal? 'F' = some 15 := by decide
    have a9 : hexDigitVal? '9' = some 9 := by decide
    have aD : hexDigitVal? 'D' = some 13 := by decide
    have a4 : hexDigitVal? '4' = some 4 := by decide
    have aE : hexDigitVal? 'E' = some 14 := by decide
    rw [h1, h2, interpolateColor_reduce a0 a0 aB aF aF aF a9 aD a4 aE aD aD]
    norm_num
    have m1 : mixRound 0 157 (1/2) = 79 := by norm_num [mixRound, jsRound]
    have m2 : mixRound 191 78 (1/2) = 135 := by norm_num [mixRound, jsRound]
    have m3 : mixRound 255 221 (1/2) = 238 := by norm_num [mixRound, jsRound]
    rw [m1, m2, m3]
    decide
  · decide

/-- C7: interpolation is symmetric under swapping the endpoint colors and
complementing the ratio: `interpolateColor A B t = interpolateColor B A
(1 - t)` for all well-formed colors and every ratio `t`. -/
theorem interpolateColor_symm
    {d1 d2 d3 d4 d5 d6 e1 e2 e3 e4 e5 e6 : Char}
    {v1 v2 v3 v4 v5 v6 w1 w2 w3 w4 w5 w6 : Nat}
    (hd1 : hexDigitVal? d1 = some v1) (hd2 : hexDigitVal? d2 = some v2)
    (hd3 : hexDigitVal? d3 = some v3) (hd4 : hexDigitVal? d4 = some v4)
    (hd5 : hexDigitVal? d5 = some v5) (hd6 : hexDigitVal? d6 = some v6)
    (he1 : hexDigitVal? e1 = some w1) (he2 : hexDigitVal? e2 = some w2)
    (he3 : hexDigitVal? e3 = some w3) (he4 : hexDigitVal? e4 = some w4)
    (he5 : hexDigitVal? e5 = some w5) (he6 : hexDigitVal? e6 = some w6)
    (t : ℚ) :
    interpolateColor ('#' :: [d1, d2, d3, d4, d5, d6]) ('#' :: [e1, e2, e3, e4, e5, e6]) t =
      interpolateColor ('#' :: [e1, e2, e3, e4, e5, e6]) ('#' :: [d1, d2, d3, d4, d5, d6]) (1 - t) := by
  rw [interpolateColor_reduce hd1 hd2 hd3 hd4 hd5 hd6 he1 he2 he3 he4 he5 he6,
    interpolateColor_reduce he1 he2 he3 he4 he5 he6 hd1 hd2 hd3 hd4 hd5 hd6,
    mixRound_symm (16 * v1 + v2) (16 * w1 + w2) t,
    mixRound_symm (16 * v3 + v4) (16 * w3 + w4) t,
    mixRound_symm (16 * v5 + v6) (16 * w5 + w6) t]

/-- Witness for C7 at the component's endpoint colors and ratio 1/4. -/
theorem interpolateColor_symm_witness :
    interpolateColor ('#' :: ['0','0','B','F','F','F']) ('#' :: ['9','D','4','E','D','D']) (1/4) =
      interpolateColor ('#' :: ['9','D','4','E','D','D']) ('#' :: ['0','0','B','F','F','F']) (1 - 1/4) := by
  have a0 : hexDigitVal? '0' = some 0 := by decide
  have aB : hexDigitVal? 'B' = some 11 := by decide
  have aF : hexDigitVal? 'F' = some 15 := by decide
  have a9 : hexDigitVal? '9' = some 9 := by decide
  have aD : hexDigitVal? 'D' = some 13 := by decide
  have a4 : hexDigitVal? '4' = some 4 := by decide
  have aE : hexDigitVal? 'E' = some 14 := by decide
  exact interpolateColor_symm a0 a0 aB aF aF aF a9 aD a4 aE aD aD (1/4)

/-- C10: interpolating a well-formed color with itself is the identity (up to
the function's lowercase hex re-encoding) for every finite ratio `t`,
including ratios outside `[0, 1]`, because every per-channel delta is zero. -/
theorem interpolateColor_self_identity
    {d1 d2 d3 d4 d5 d6 : Char} {v1 v2 v3 v4 v5 v6 : Nat}
    (hd1 : hexDigitVal? d1 = some v1) (hd2 : hexDigitVal? d2 = some v2)
    (hd3 : hexDigitVal? d3 = some v3) (hd4 : hexDigitVal? d4 = some v4)
    (hd5 : hexDigitVal? d5 = some v5) (hd6 : hexDigitVal? d6 = some v6)
    (t : ℚ) :
    interpolateColor ('#' :: [d1, d2, d3, d4, d5, d6]) ('#' :: [d1, d2, d3, d4, d5, d6]) t =
      reencodeColor ('#' :: [d1, d2, d3, d4, d5, d6]) := by
  rw [interpolateColor_reduce hd1 hd2 hd3 hd4 hd5 hd6 hd1 hd2 hd3 hd4 hd5 hd6,
    reencodeColor_reduce hd1 hd2 hd3 hd4 hd5 hd6,
    mixRound_self, mixRound_self, mixRound_self,
    padStart2_intToHex_natCast (two_hex_digits_lt_256 hd1 hd2),
    padStart2_intToHex_natCast (two_hex_digits_lt_256 hd3 hd4),
    padStart2_intToHex_natCast (two_hex_digits_lt_256 hd5 hd6)]
  simp [canonicalHex]

/-- Witness for C10 at `#9D4EDD` and the out-of-range ratio 7/3. -/
theorem interpolateColor_self_identity_witness :
    interpolateColor ('#' :: ['9','D','4','E','D','D']) ('#' :: ['9','D','4','E','D','D']) (7/3) =
      reencodeColor ('#' :: ['9','D','4','E','D','D']) := by
  have a0 : hexDigitVal? '0' = some 0 := by decide
  have aB : hexDigitVal? 'B' = some 11 := by decide
  have aF : hexDigitVal? 'F' = some 15 := by decide
  have a9 : hexDigitVal? '9' = some 9 := by decide
  have aD : hexDigitVal? 'D' = some 13 := by decide
  have a4 : hexDigitVal? '4' = some 4 := by decide
  have aE : hexDigitVal? 'E' = some 14 := by decide
  exact interpolateColor_self_identity a9 aD a4 aE aD aD (7/3)

namespace RotatingGradientBorder

lemma jsFmod_one_eq_fract {x : ℚ} (hx : 0 ≤ x) : jsFmod x 1 = Int.fract x := by
  unfold jsFmod jsTrunc
  rw [div_one, if_pos hx, Int.fract]
  ring

lemma fract_natCast_div_32 (m : ℕ) :
    Int.fract ((m : ℚ) / 32) = ((m % 32 : ℕ) : ℚ) / 32 := by
  have h := @Int.fract_div_natCast_eq_div_natCast_mod ℚ _ _ m 32
  simpa using h

lemma segmentPhase_grid (k i : ℕ) :
    segmentPhase ((k : ℚ) / 32) i = ((k + i) % 32 : ℕ) / 32 := by
  unfold segmentPhase
  rw [jsFmod_one_eq_fract (by positivity)]
  have h1 : (k : ℚ) / 32 + (i : ℚ) / 32 = ((k + i : ℕ) : ℚ) / 32 := by push_cast; ring
  rw [h1, fract_natCast_div_32]

end RotatingGradientBorder

/-- C3: at every phase `p ∈ [0, 1]` the listener produces 32 segment colors,
and segment `i` gets `interpolateColor(NEON_BLUE, NEON_PURPLE, (p + i/32) % 1)`:
the ratio is the global phase offset by `i/32` and wrapped into `[0, 1)`. -/
theorem segment_color_formula (p : ℚ) (hp0 : 0 ≤ p) (_hp1 : p ≤ 1)
    (i : Nat) (hi : i < (segmentColors p).length) :
    (segmentColors p).length = 32 ∧
    (segmentColors p).get ⟨i, hi⟩ =
      interpolateColor NEON_BLUE NEON_PURPLE (jsFmod (p + (i : ℚ) / 32) 1) ∧
    jsFmod (p + (i : ℚ) / 32) 1 = Int.fract (p + (i : ℚ) / 32) ∧
    0 ≤ jsFmod (p + (i : ℚ) / 32) 1 ∧ jsFmod (p + (i : ℚ) / 32) 1 < 1 := by
  have hfr : jsFmod (p + (i : ℚ) / 32) 1 = Int.fract (p + (i : ℚ) / 32) :=
    RotatingGradientBorder.jsFmod_one_eq_fract (by positivity)
  refine ⟨by simp [segmentColors, segmentCount], ?_, hfr, ?_, ?_⟩
  · simp [segmentColors, segColor, segmentPhase]
  · rw [hfr]; exact Int.fract_nonneg _
  · rw [hfr]; exact Int.fract_lt_one _

/-- Witness for C3 at phase 1/2 and segment 5. -/
theorem segment_color_formula_witness :
    (segmentColors (1/2)).length = 32 ∧
    (segmentColors (1/2)).get ⟨5, by simp [segmentColors, segmentCount]⟩ =
      interpolateColor NEON_BLUE NEON_PURPLE (jsFmod (1/2 + ((5 : ℕ) : ℚ) / 32) 1) ∧
    jsFmod (1/2 + ((5 : ℕ) : ℚ) / 32) 1 = Int.fract (1/2 + ((5 : ℕ) : ℚ) / 32) ∧
    0 ≤ jsFmod (1/2 + ((5 : ℕ) : ℚ) / 32) 1 ∧ jsFmod (1/2 + ((5 : ℕ) : ℚ) / 32) 1 < 1 :=
  segment_color_formula (1/2) (by norm_num) (by norm_num) 5
    (by simp [segmentColors, segmentCount])

/-- C5 (corrected): the claimed rotation identity
`segColor p i = segColor 0 ((i + round(p*32)) % 32)` fails as an exact (or
±1-per-channel) statement for general `p ∈ [0,1]`: at `p = 1/64`, `i = 0` the
two sides are `#02bdfe` and `#05bbfe`, whose red channels (2 and 5) differ by
3. -/
theorem segment_rotation_counterexample :
    jsRound ((1/64 : ℚ) * 32) = 1 ∧
    segColor (1/64) 0 = some "#02bdfe".toList ∧
    segColor 0 ((0 + (jsRound ((1/64 : ℚ) * 32)).toNat) % 32) = some "#05bbfe".toList ∧
    segColor (1/64) 0 ≠ segColor 0 ((0 + (jsRound ((1/64 : ℚ) * 32)).toNat) % 32) ∧
    jsParseIntHex (jsSubstring "#02bdfe".toList 1 3) = some 2 ∧
    jsParseIntHex (jsSubstring "#05bbfe".toList 1 3) = some 5 := by
  have hr : jsRound ((1/64 : ℚ) * 32) = 1 := by norm_num [jsRound]
  have hidx : ((0 + (jsRound ((1/64 : ℚ) * 32)).toNat) % 32) = 1 := by rw [hr]; rfl
  have hph1 : segmentPhase (1/64) 0 = 1/64 := by
    unfold segmentPhase
    rw [RotatingGradientBorder.jsFmod_one_eq_fract (by norm_num)]
    have h : (1/64 : ℚ) + ((0 : ℕ) : ℚ) / 32 = 1/64 := by norm_num
    rw [h]
    exact Int.fract_eq_self.mpr ⟨by norm_num, by norm_num⟩
  have hph2 : segmentPhase 0 1 = 1/32 := by
    unfold segmentPhase
    rw [RotatingGradientBorder.jsFmod_one_eq_fract (by norm_num)]
    have h : (0 : ℚ) + ((1 : ℕ) : ℚ) / 32 = 1/32 := by norm_num
    rw [h]
    exact Int.fract_eq_self.mpr ⟨by norm_num, by norm_num⟩
  have hb : NEON_BLUE = '#' :: ['0','0','B','F','F','F'] := rfl
  have hq : NEON_PURPLE = '#' :: ['9','D','4','E','D','D'] := rfl
  have a0 : hexDigitVal? '0' = some 0 := by decide
  have aB : hexDigitVal? 'B' = some 11 := by decide
  have aF : hexDigitVal? 'F' = some 15 := by decide
  have a9 : hexDigitVal? '9' = some 9 := by decide
  have aD : hexDigitVal? 'D' = some 13 := by decide
  have a4 : hexDigitVal? '4' = some 4 := by decide
  have aE : hexDigitVal? 'E' = some 14 := by decide
  have e1 : segColor (1/64) 0 = some "#02bdfe".toList := by
    unfold segColor
    rw [hph1, hb, hq, interpolateColor_reduce a0 a0 aB aF aF aF a9 aD a4 aE aD aD]
    norm_num
    have m1 : mixRound 0 157 (1/64) = 2 := by norm_num [mixRound, jsRound]
    have m2 : mixRound 191 78 (1/64) = 189 := by norm_num [mixRound, jsRound]
    have m3 : mixRound 255 221 (1/64) = 254 := by norm_num [mixRound, jsRound]
    rw [m1, m2, m3]
    decide
  have e2 : segColor 0 1 = some "#05bbfe".toList := by
    unfold segColor
    rw [hph2, hb, hq, interpolateColor_reduce a0 a0 aB aF aF aF a9 aD a4 aE aD aD]
    norm_num
    have m1 : mixRound 0 157 (1/32) = 5 := by norm_num [mixRound, jsRound]
    have m2 : mixRound 191 78 (1/32) = 187 := by norm_num [mixRound, jsRound]
    have m3 : mixRound 255 221 (1/32) = 254 := by norm_num [mixRound, jsRound]
    rw [m1, m2, m3]
    decide
  refine ⟨hr, e1, by rw [hidx]; exact e2, ?_, by decide, by decide⟩
  rw [e1, hidx, e2]
  decide

/-- C5 (amended): the rotation identity holds exactly for the phases at which
the rotation amount is a whole number of segments — for `p = k/32` the color
of segment `i` at phase `p` equals the color of segment
`(i + round(p*32)) % 32` at phase 0. -/
theorem segment_rotation_exact_on_grid (k : ℕ) (_hk : k ≤ 32) (i : ℕ) (_hi : i < 32) :
    segColor ((k : ℚ) / 32) i =
      segColor 0 ((i + (jsRound ((k : ℚ) / 32 * 32)).toNat) % 32) := by
  have hr : jsRound ((k : ℚ) / 32 * 32) = (k : ℤ) := by
    rw [div_mul_cancel₀ _ (by norm_num : (32 : ℚ) ≠ 0)]
    exact jsRound_natCast k
  rw [hr, Int.toNat_natCast]
  unfold segColor
  congr 1
  rw [RotatingGradientBorder.segmentPhase_grid]
  unfold segmentPhase
  rw [RotatingGradientBorder.jsFmod_one_eq_fract (by positivity), zero_add,
    RotatingGradientBorder.fract_natCast_div_32]
  have h2 : ((k + i) % 32 : ℕ) = (((i + k) % 32 : ℕ) % 32 : ℕ) := by omega
  rw [h2]

/-- Witness for the amended C5 at `k = 8` (phase 1/4) and segment 3. -/
theorem segment_rotation_exact_on_grid_witness :
    segColor (((8 : ℕ) : ℚ) / 32) 3 =
      segColor 0 ((3 + (jsRound (((8 : ℕ) : ℚ) / 32 * 32)).toNat) % 32) :=
  segment_rotation_exact_on_grid 8 (by norm_num) 3 (by norm_num)

namespace RotatingGradientBorder

lemma hexDigitVal?_hexDigitChar : ∀ d : ℕ, d < 16 → hexDigitVal? (hexDigitChar d) = some d := by
  decide

lemma jsParseIntHex_encodeByte {m : ℕ} (hm : m < 256) :
    jsParseIntHex (encodeByte m) = some m := by
  have h1 : hexDigitVal? (hexDigitChar (m / 16)) = some (m / 16) :=
    hexDigitVal?_hexDigitChar _ (by omega)
  have h2 : hexDigitVal? (hexDigitChar (m % 16)) = some (m % 16) :=
    hexDigitVal?_hexDigitChar _ (by omega)
  have := jsParseIntHex_pair h1 h2
  rw [encodeByte, this]
  congr 1
  omega

lemma sumChannel_replicate {lo hi : ℕ} {C : List Char} {v : ℕ}
    (hv : jsParseIntHex (jsSubstring C lo hi) = some v) (n : ℕ) :
    sumChannel lo hi (List.replicate n C) = some (n * v) := by
  have key : ∀ (m s : ℕ), (List.replicate m C).foldl
      (fun acc color => do
        let s ← acc
        let w ← jsParseIntHex (jsSubstring color lo hi)
        some (s + w)) (some s) = some (s + m * v) := by
    intro m
    induction m with
    | zero => intro s; simp
    | succ m ih =>
      intro s
      rw [List.replicate_succ, List.foldl_cons]
      have hstep : (do
          let a ← some s
          let w ← jsParseIntHex (jsSubstring C lo hi)
          some (a + w)) = some (s + v) := by simp [hv]
      rw [hstep, ih (s + v)]
      congr 1
      ring
  unfold sumChannel
  rw [key n 0]
  simp

end RotatingGradientBorder

/-- C8: the aggregate glow color of `n ≥ 1` segments that all carry the same
color `#rrggbb` is that color exactly: summing each channel, dividing by the
count, rounding and re-encoding reproduces the input channels. -/
theorem avgColor_const (n : ℕ) (hn : 1 ≤ n) (r g b : ℕ)
    (hr : r < 256) (hg : g < 256) (hb : b < 256) :
    avgColor (List.replicate n (canonicalHex r g b)) = some (canonicalHex r g b) := by
  have hsub1 : jsSubstring (canonicalHex r g b) 1 3 = encodeByte r := rfl
  have hsub2 : jsSubstring (canonicalHex r g b) 3 5 = encodeByte g := rfl
  have hsub3 : jsSubstring (canonicalHex r g b) 5 7 = encodeByte b := rfl
  have hp1 : jsParseIntHex (jsSubstring (canonicalHex r g b) 1 3) = some r := by
    rw [hsub1]; exact RotatingGradientBorder.jsParseIntHex_encodeByte hr
  have hp2 : jsParseIntHex (jsSubstring (canonicalHex r g b) 3 5) = some g := by
    rw [hsub2]; exact RotatingGradientBorder.jsParseIntHex_encodeByte hg
  have hp3 : jsParseIntHex (jsSubstring (canonicalHex r g b) 5 7) = some b := by
    rw [hsub3]; exact RotatingGradientBorder.jsParseIntHex_encodeByte hb
  have hs1 := RotatingGradientBorder.sumChannel_replicate hp1 n
  have hs2 := RotatingGradientBorder.sumChannel_replicate hp2 n
  have hs3 := RotatingGradientBorder.sumChannel_replicate hp3 n
  unfold avgColor
  rw [hs1, hs2, hs3]
  simp only [Option.bind_eq_bind, Option.some_bind, List.length_replicate]
  rw [if_neg (by omega)]
  have hn0 : ((n : ℕ) : ℚ) ≠ 0 := Nat.cast_ne_zero.mpr (by omega)
  have hq1 : ((n * r : ℕ) : ℚ) / (n : ℚ) = ((r : ℕ) : ℚ) := by
    push_cast
    rw [mul_comm, mul_div_assoc, div_self hn0, mul_one]
  have hq2 : ((n * g : ℕ) : ℚ) / (n : ℚ) = ((g : ℕ) : ℚ) := by
    push_cast
    rw [mul_comm, mul_div_assoc, div_self hn0, mul_one]
  have hq3 : ((n * b : ℕ) : ℚ) / (n : ℚ) = ((b : ℕ) : ℚ) := by
    push_cast
    rw [mul_comm, mul_div_assoc, div_self hn0, mul_one]
  rw [hq1, hq2, hq3, List.map_cons, List.map_cons, List.map_cons,
    jsRound_natCast, jsRound_natCast, jsRound_natCast,
    padStart2_intToHex_natCast hr, padStart2_intToHex_natCast hg,
    padStart2_intToHex_natCast hb]
  simp [canonicalHex]

/-- Witness for C8: three segments of the component's own `#00bfff`. -/
theorem avgColor_const_witness :
    avgColor (List.replicate 3 (canonicalHex 0 191 255)) = some (canonicalHex 0 191 255) :=
  avgColor_const 3 (by norm_num) 0 191 255 (by norm_num) (by norm_num) (by norm_num)

/-- C9: the component's configuration surface does not expose the segment
count; for every accepted configuration the segment count is the hard-coded
32, which is divisible by 4, `segmentsPerSide` is exactly its quarter, and
the listener produces exactly that many segments before any rendering. -/
theorem segment_configuration_div_four (props : Props) (p : ℚ) :
    segmentCountOf props = 32 ∧
    segmentCountOf props % 4 = 0 ∧
    segmentsPerSide = segmentCountOf props / 4 ∧
    (segmentColors p).length = segmentCountOf props := by
  refine ⟨rfl, by simp [segmentCountOf, segmentCount], by simp [segmentCountOf, segmentCount, segmentsPerSide], ?_⟩
  simp [segmentColors, segmentCount, segmentCountOf]

/-- C6: for well-formed colors and every ratio `t ∈ [0, 1]`, each decoded
channel of the interpolated color lies between the corresponding channels of
the two endpoints, and in particular stays in `[0, 255]`, so the result
re-encodes as a valid `#rrggbb` color. -/
theorem interpolateColor_channel_bounds
    {d1 d2 d3 d4 d5 d6 e1 e2 e3 e4 e5 e6 : Char}
    {v1 v2 v3 v4 v5 v6 w1 w2 w3 w4 w5 w6 : Nat}
    (hd1 : hexDigitVal? d1 = some v1) (hd2 : hexDigitVal? d2 = some v2)
    (hd3 : hexDigitVal? d3 = some v3) (hd4 : hexDigitVal? d4 = some v4)
    (hd5 : hexDigitVal? d5 = some v5) (hd6 : hexDigitVal? d6 = some v6)
    (he1 : hexDigitVal? e1 = some w1) (he2 : hexDigitVal? e2 = some w2)
    (he3 : hexDigitVal? e3 = some w3) (he4 : hexDigitVal? e4 = some w4)
    (he5 : hexDigitVal? e5 = some w5) (he6 : hexDigitVal? e6 = some w6)
    {t : ℚ} (h0 : 0 ≤ t) (h1 : t ≤ 1) :
    ∃ r g b : ℕ,
      interpolateColor ('#' :: [d1, d2, d3, d4, d5, d6]) ('#' :: [e1, e2, e3, e4, e5, e6]) t =
        some (canonicalHex r g b) ∧
      min (16 * v1 + v2) (16 * w1 + w2) ≤ r ∧ r ≤ max (16 * v1 + v2) (16 * w1 + w2) ∧
      min (16 * v3 + v4) (16 * w3 + w4) ≤ g ∧ g ≤ max (16 * v3 + v4) (16 * w3 + w4) ∧
      min (16 * v5 + v6) (16 * w5 + w6) ≤ b ∧ b ≤ max (16 * v5 + v6) (16 * w5 + w6) ∧
      r ≤ 255 ∧ g ≤ 255 ∧ b ≤ 255 := by
  have hr1 := @min_le_mixRound (16 * v1 + v2) (16 * w1 + w2) t h0 h1
  have hr2 := @mixRound_le_max (16 * v1 + v2) (16 * w1 + w2) t h0 h1
  have hg1 := @min_le_mixRound (16 * v3 + v4) (16 * w3 + w4) t h0 h1
  have hg2 := @mixRound_le_max (16 * v3 + v4) (16 * w3 + w4) t h0 h1
  have hb1 := @min_le_mixRound (16 * v5 + v6) (16 * w5 + w6) t h0 h1
  have hb2 := @mixRound_le_max (16 * v5 + v6) (16 * w5 + w6) t h0 h1
  have bd1 := two_hex_digits_lt_256 hd1 hd2
  have bd2 := two_hex_digits_lt_256 hd3 hd4
  have bd3 := two_hex_digits_lt_256 hd5 hd6
  have be1 := two_hex_digits_lt_256 he1 he2
  have be2 := two_hex_digits_lt_256 he3 he4
  have be3 := two_hex_digits_lt_256 he5 he6
  refine ⟨(mixRound (16 * v1 + v2) (16 * w1 + w2) t).toNat,
    (mixRound (16 * v3 + v4) (16 * w3 + w4) t).toNat,
    (mixRound (16 * v5 + v6) (16 * w5 + w6) t).toNat, ?_, ?_, ?_, ?_, ?_, ?_, ?_, ?_, ?_, ?_⟩
  · rw [interpolateColor_reduce hd1 hd2 hd3 hd4 hd5 hd6 he1 he2 he3 he4 he5 he6,
      padStart2_intToHex_eq (by omega) (by omega),
      padStart2_intToHex_eq (by omega) (by omega),
      padStart2_intToHex_eq (by omega) (by omega)]
    simp [canonicalHex]
  all_goals omega

/-- Witness for C6 at the component's endpoint colors and ratio 1/2. -/
theorem interpolateColor_channel_bounds_witness :
    ∃ r g b : ℕ,
      interpolateColor ('#' :: ['0','0','B','F','F','F']) ('#' :: ['9','D','4','E','D','D']) (1/2) =
        some (canonicalHex r g b) ∧
      min (16 * 0 + 0) (16 * 9 + 13) ≤ r ∧ r ≤ max (16 * 0 + 0) (16 * 9 + 13) ∧
      min (16 * 11 + 15) (16 * 4 + 14) ≤ g ∧ g ≤ max (16 * 11 + 15) (16 * 4 + 14) ∧
      min (16 * 15 + 15) (16 * 13 + 13) ≤ b ∧ b ≤ max (16 * 15 + 15) (16 * 13 + 13) ∧
      r ≤ 255 ∧ g ≤ 255 ∧ b ≤ 255 := by
  have a0 : hexDigitVal? '0' = some 0 := by decide
  have aB : hexDigitVal? 'B' = some 11 := by decide
  have aF : hexDigitVal? 'F' = some 15 := by decide
  have a9 : hexDigitVal? '9' = some 9 := by decide
  have aD : hexDigitVal? 'D' = some 13 := by decide
  have a4 : hexDigitVal? '4' = some 4 := by decide
  have aE : hexDigitVal? 'E' = some 14 := by decide
  exact interpolateColor_channel_bounds a0 a0 aB aF aF aF a9 aD a4 aE aD aD
    (by norm_num) (by norm_num)

/-- C4: for every phase, the border is exactly 32 segments, 8 per side, with
segment `i` on side `i / 8` at offset `(i % 8) * (100/8)` percent; every
non-final segment of a side is `100/8` percent long, the final one is
extended to `100 - (i % 8) * (100/8)` percent; per-side lengths sum to
exactly 100, consecutive segments of a side are adjacent (no gap, no
overlap), and each side's last segment ends exactly at 100. -/
theorem border_segment_geometry (p : ℚ) :
    (renderBorderSegments (segmentColors p)).length = segmentCount ∧
    (∀ s, s < 4 →
      ((renderBorderSegments (segmentColors p)).filter (fun seg => seg.side = s)).length =
        segmentsPerSide) ∧
    (∀ i, ∀ hi : i < (renderBorderSegments (segmentColors p)).length,
      ((renderBorderSegments (segmentColors p)).get ⟨i, hi⟩).side = i / 8 ∧
      ((renderBorderSegments (segmentColors p)).get ⟨i, hi⟩).start =
        ((i % 8 : ℕ) : ℚ) * (100 / 8) ∧
      (i % 8 ≠ 7 → ((renderBorderSegments (segmentColors p)).get ⟨i, hi⟩).length = 100 / 8) ∧
      (i % 8 = 7 → ((renderBorderSegments (segmentColors p)).get ⟨i, hi⟩).length =
        100 - ((i % 8 : ℕ) : ℚ) * (100 / 8)) ∧
      ((renderBorderSegments (segmentColors p)).get ⟨i, hi⟩).start +
        ((renderBorderSegments (segmentColors p)).get ⟨i, hi⟩).length ≤ 100) ∧
    (∀ s, s < 4 →
      (((renderBorderSegments (segmentColors p)).filter (fun seg => seg.side = s)).map
          (fun seg => seg.length)).sum = 100) ∧
    (∀ i, ∀ hi : i < (renderBorderSegments (segmentColors p)).length,
      ∀ h1 : i + 1 < (renderBorderSegments (segmentColors p)).length, (i + 1) % 8 ≠ 0 →
      ((renderBorderSegments (segmentColors p)).get ⟨i + 1, h1⟩).start =
        ((renderBorderSegments (segmentColors p)).get ⟨i, hi⟩).start +
          ((renderBorderSegments (segmentColors p)).get ⟨i, hi⟩).length) ∧
    (∀ i, ∀ hi : i < (renderBorderSegments (segmentColors p)).length, i % 8 = 7 →
      ((renderBorderSegments (segmentColors p)).get ⟨i, hi⟩).start +
        ((renderBorderSegments (segmentColors p)).get ⟨i, hi⟩).length = 100) := by
  have hb : renderBorderSegments (segmentColors p) =
      (List.range 32).map (fun j => segGeom j (segColor p j)) := rfl
  have hget : ∀ i, ∀ hi : i < (renderBorderSegments (segmentColors p)).length,
      (renderBorderSegments (segmentColors p)).get ⟨i, hi⟩ = segGeom i (segColor p i) := by
    intro i hi
    simp [hb, List.get_eq_getElem]
  refine ⟨rfl, ?_, ?_, ?_, ?_, ?_⟩
  · intro s hs
    rw [hb]
    interval_cases s <;> simp [segGeom, segmentsPerSide, List.range_succ]
  · intro i hi
    have hi32 : i < 32 := hi
    have hm8 : i % 8 < 8 := Nat.mod_lt _ (by norm_num)
    rw [hget i hi]
    refine ⟨?_, ?_, ?_, ?_, ?_⟩
    · simp [segGeom, segmentsPerSide]
    · norm_num [segGeom, segmentsPerSide]
    · intro h7
      norm_num [segGeom, segmentsPerSide, h7]
    · intro h7
      norm_num [segGeom, segmentsPerSide, h7]
    · rcases eq_or_ne (i % 8) 7 with h7 | h7
      · norm_num [segGeom, segmentsPerSide, h7]
      · norm_num [segGeom, segmentsPerSide, h7]
        have hc : ((i % 8 : ℕ) : ℚ) ≤ 7 := by exact_mod_cast Nat.lt_succ_iff.mp hm8
        nlinarith
  · intro s hs
    rw [hb]
    interval_cases s <;> norm_num [segGeom, segmentsPerSide, List.range_succ]
  · intro i hi h1 hnz
    have h7 : i % 8 ≠ 7 := by omega
    have hstep : (i + 1) % 8 = i % 8 + 1 := by omega
    rw [hget i hi, hget (i + 1) h1]
    norm_num [segGeom, segmentsPerSide, hstep, h7]
    ring
  · intro i hi h7
    rw [hget i hi]
    norm_num [segGeom, segmentsPerSide, h7]

/-- Witness for C4 at phase 1/3, side 2 and segment 12. -/
theorem border_segment_geometry_witness :
    (renderBorderSegments (segmentColors (1/3))).length = segmentCount ∧
    ((renderBorderSegments (segmentColors (1/3))).filter (fun seg => seg.side = 2)).length =
      segmentsPerSide ∧
    (((renderBorderSegments (segmentColors (1/3))).filter (fun seg => seg.side = 2)).map
      (fun seg => seg.length)).sum = 100 ∧
    ((renderBorderSegments (segmentColors (1/3))).get ⟨12, by decide⟩).side = 12 / 8 := by
  obtain ⟨h1, h2, h3, h4, h5, h6⟩ := border_segment_geometry (1/3)
  exact ⟨h1, h2 2 (by norm_num), h4 2 (by norm_num), (h3 12 (by decide)).1⟩

